import Mathlib

/-!
Verification development for the phoebe-shelves-clt CSV backend data model.

The definitions below are a shallow embedding of
`src/phoebe_shelves_clt/utils/data_model.py` (class `CSVDataModel`) and
`src/phoebe_shelves_clt/csv_backend/manage_csv.py`.  Pandas DataFrames are
embedded as Lean lists of typed row structures; a pandas boolean-mask filter
becomes `List.filter`, `pd.merge` (inner, preserving left-key order) becomes a
nested `flatMap`/`filter`, and a `groupby(...).agg(...)` becomes a map over the
sorted list of distinct keys (pandas `groupby` sorts keys by default).
Missing values (NaN/NaT/empty cells) are embedded as `Option.none`; numeric
cells as `ℚ`.  Column-name arguments of the generic mutation helpers are
embedded as column-selector functions.
-/

/-- Calendar date, as produced by `pd.to_datetime(...).dt.date`. -/
structure Date where
  y : Nat
  m : Nat
  d : Nat
deriving DecidableEq, Repr

/-- Chronological comparison on dates (pandas datetime comparison). -/
def Date.le (a b : Date) : Bool :=
  decide (a.y < b.y) ||
    (a.y == b.y && (decide (a.m < b.m) || (a.m == b.m && decide (a.d ≤ b.d))))

/-- Leap-year test for the Gregorian calendar. -/
def Date.isLeap (yr : Nat) : Bool :=
  (yr % 4 == 0 && yr % 100 != 0) || yr % 400 == 0

/-- Cumulative day count before the first day of month `mo`. -/
def daysBeforeMonth (leap : Bool) (mo : Nat) : Nat :=
  [0, 31, 59, 90, 120, 151, 181, 212, 243, 273, 304, 334].getD (mo - 1) 0 +
    (if leap && decide (2 < mo) then 1 else 0)

/-- Day number of a date in the proleptic Gregorian calendar; date
subtraction (`finish_date - start_date`), as used for `read_time`,
is the difference of day numbers. -/
def Date.toOrdinal (dt : Date) : Nat :=
  let py := dt.y - 1
  365 * py + py / 4 - py / 100 + py / 400 +
    daysBeforeMonth (Date.isLeap dt.y) dt.m + dt.d

/-- Row of `authors.csv`; after `load_model` runs `fillna("")`, every name
component is a plain string with `""` for a missing cell. -/
structure AuthorRow where
  id : Nat
  first_name : String
  middle_name : String
  last_name : String
  suffix : String
deriving DecidableEq, Repr

/-- Row of `books.csv`.  `book_length` and `rating` are optional numeric
cells (NaN when absent). -/
structure BookRow where
  id : Nat
  title : String
  book_length : Option ℚ
  rating : Option ℚ
deriving DecidableEq, Repr

/-- Row of `genres.csv`. -/
structure GenreRow where
  id : Nat
  name : String
deriving DecidableEq, Repr

/-- Row of `series.csv`. -/
structure SeriesRow where
  id : Nat
  series_name : String
deriving DecidableEq, Repr

/-- Row of `reading.csv`; dates and rating are optional. -/
structure ReadingRow where
  id : Nat
  book_id : Nat
  start_date : Option Date
  finish_date : Option Date
  rating : Option ℚ
deriving DecidableEq, Repr

/-- Row of `books_authors.csv`. -/
structure BookAuthorRow where
  book_id : Nat
  author_id : Nat
deriving DecidableEq, Repr

/-- Row of `books_genres.csv`. -/
structure BookGenreRow where
  book_id : Nat
  genre_id : Nat
deriving DecidableEq, Repr

/-- Row of `books_series.csv`. -/
structure BookSeriesRow where
  book_id : Nat
  series_id : Nat
  series_order : Nat
deriving DecidableEq, Repr

/-- The in-memory table set `CSVDataModel.model_data`: the eight component
tables, each a list of rows in file order. -/
structure Model where
  authors : List AuthorRow
  books : List BookRow
  genres : List GenreRow
  reading : List ReadingRow
  series : List SeriesRow
  books_authors : List BookAuthorRow
  books_genres : List BookGenreRow
  books_series : List BookSeriesRow
deriving DecidableEq, Repr

/-- `CSVDataModel.merge_names`: sequential concatenation of the name parts,
appending `part ++ " "` for each non-empty leading component and
`", " ++ suffix` when the suffix is non-empty. -/
def merge_names (first_name middle_name last_name sfx : String) : String :=
  let n1 := if first_name ≠ "" then "" ++ (first_name ++ " ") else ""
  let n2 := if middle_name ≠ "" then n1 ++ (middle_name ++ " ") else n1
  let n3 := if last_name ≠ "" then n2 ++ last_name else n2
  if sfx ≠ "" then n3 ++ (", " ++ sfx) else n3

/-- Join a list of strings with single spaces. -/
def joinWithSpaces : List String → String
  | [] => ""
  | [x] => x
  | x :: xs => x ++ " " ++ joinWithSpaces xs

/-- Modelled from the spec: the full-name formatting rule, "concatenate first
name, middle name, and last name with single spaces, omitting any empty
component without leaving a double space; if a suffix is present append
`", " + suffix`". -/
def spec_full_name (first_name middle_name last_name sfx : String) : String :=
  joinWithSpaces (([first_name, middle_name, last_name]).filter (fun s => s ≠ "")) ++
    (if sfx ≠ "" then ", " ++ sfx else "")

/-- Insert a key into a sorted duplicate-free key list (used to embed the
sorted distinct group keys that `DataFrame.groupby` produces). -/
def insertKey (k : Nat) : List Nat → List Nat
  | [] => [k]
  | x :: xs =>
    if k < x then k :: x :: xs
    else if k = x then x :: xs
    else x :: insertKey k xs

/-- The sorted list of distinct keys of a column, as used by
`groupby(column)` (pandas sorts group keys by default). -/
def sortKeys (l : List Nat) : List Nat := l.foldr insertKey []

/-- Output row of `CSVDataModel.create_authors_formatted` (no selection):
author id plus the formatted full name. -/
structure AuthorFmt where
  id : Nat
  author : String
deriving DecidableEq, Repr

/-- `CSVDataModel.create_authors_formatted` with `selection = None`. -/
def create_authors_formatted (m : Model) : List AuthorFmt :=
  m.authors.map (fun a =>
    ⟨a.id, merge_names a.first_name a.middle_name a.last_name a.suffix⟩)

/-- One row of the inner merge of `books_authors` with the formatted
authors table (`pd.merge(books_authors, authors_temp, left_on="author_id",
right_on="id")`, which preserves left order). -/
structure AuthorPair where
  book_id : Nat
  author_id : Nat
  author : String
deriving DecidableEq, Repr

/-- The merged `books_authors` × formatted-authors table inside
`CSVDataModel.create_book_authors_merge`. -/
def books_authors_joined (m : Model) : List AuthorPair :=
  m.books_authors.flatMap (fun ba =>
    ((create_authors_formatted m).filter (fun a => a.id == ba.author_id)).map
      (fun a => ⟨ba.book_id, ba.author_id, a.author⟩))

/-- Aggregated author data per book: comma-joined names and the group's
author ids (Python builds `set(id)`; only membership is ever used, so the
group's id list with the same members embeds it). -/
structure AuthorAgg where
  book_id : Nat
  authors : String
  author_ids : List Nat
deriving DecidableEq, Repr

/-- The aggregate row of `create_book_authors_merge` for one group key. -/
def mk_author_agg (m : Model) (k : Nat) : AuthorAgg :=
  let grp := (books_authors_joined m).filter (fun p => p.book_id == k)
  ⟨k, String.intercalate ", " (grp.map (fun p => p.author)),
    grp.map (fun p => p.author_id)⟩

/-- `CSVDataModel.create_book_authors_merge`: group the joined table by
`book_id` and aggregate names and id sets. -/
def create_book_authors_merge (m : Model) : List AuthorAgg :=
  (sortKeys ((books_authors_joined m).map (fun p => p.book_id))).map
    (mk_author_agg m)

/-- One row of the inner merge of `books_genres` with `genres`. -/
structure GenrePair where
  book_id : Nat
  genre_id : Nat
  name : String
deriving DecidableEq, Repr

/-- The merged `books_genres` × `genres` table inside
`CSVDataModel.create_books_genres_merge`. -/
def books_genres_joined (m : Model) : List GenrePair :=
  m.books_genres.flatMap (fun bg =>
    ((m.genres).filter (fun g => g.id == bg.genre_id)).map
      (fun g => ⟨bg.book_id, bg.genre_id, g.name⟩))

/-- Aggregated genre data per book. -/
structure GenreAgg where
  book_id : Nat
  genre : String
  genre_ids : List Nat
deriving DecidableEq, Repr

/-- The aggregate row of `create_books_genres_merge` for one group key. -/
def mk_genre_agg (m : Model) (k : Nat) : GenreAgg :=
  let grp := (books_genres_joined m).filter (fun p => p.book_id == k)
  ⟨k, String.intercalate ", " (grp.map (fun p => p.name)),
    grp.map (fun p => p.genre_id)⟩

/-- `CSVDataModel.create_books_genres_merge`. -/
def create_books_genres_merge (m : Model) : List GenreAgg :=
  (sortKeys ((books_genres_joined m).map (fun p => p.book_id))).map
    (mk_genre_agg m)

/-- The reading rows of one `groupby("book_id")` group, in table order. -/
def reading_group (m : Model) (k : Nat) : List ReadingRow :=
  m.reading.filter (fun r => r.book_id == k)

/-- Aggregated reading data per book: `agg({"rating": "mean",
"finish_date": "count"})`.  `mean` skips missing ratings and is NaN
(embedded `none`) when every rating in the group is missing; `count`
counts the non-missing finish dates. -/
structure ReadingAgg where
  book_id : Nat
  avg_rating : Option ℚ
  times_read : Nat
deriving DecidableEq, Repr

/-- The aggregate row of `create_books_reading_agg` for one group key. -/
def mk_reading_agg (m : Model) (k : Nat) : ReadingAgg :=
  let rs := (reading_group m k).filterMap (fun r => r.rating)
  ⟨k, if rs.isEmpty then none else some (rs.sum / (rs.length : ℚ)),
    ((reading_group m k).filterMap (fun r => r.finish_date)).length⟩

/-- `CSVDataModel.create_books_reading_agg`. -/
def create_books_reading_agg (m : Model) : List ReadingAgg :=
  (sortKeys (m.reading.map (fun r => r.book_id))).map (mk_reading_agg m)

/-- `CSVDataModel.check_all_in_set`: starts a flag at `False` and sets it to
`True` whenever an element of `start_list` is found in `target_set`; the
flag is never reset, so the result is an existential membership test despite
the method name. -/
def check_all_in_set (start_list : List Nat) (target_set : List Nat) : Bool :=
  start_list.foldl (fun is_in_set element =>
    if element ∈ target_set then true else is_in_set) false

/-- Pandas comparison `value <= threshold` on a possibly-missing cell:
comparisons against NaN are `False`. -/
def optLe (v : Option ℚ) (t : ℚ) : Bool :=
  match v with
  | none => false
  | some x => decide (x ≤ t)

/-- Pandas comparison `value >= threshold` on a possibly-missing cell. -/
def optGe (v : Option ℚ) (t : ℚ) : Bool :=
  match v with
  | none => false
  | some x => decide (t ≤ x)

/-- `CSVDataModel.numeric_filter` as a per-row predicate: comparison type 1
is at-most, 2 is at-least, 3 is between (inclusive), anything else is the
missing-value check.  The source indexes `thresholds[0]`/`thresholds[1]`;
`getD` embeds the in-range accesses. -/
def numeric_filter {α : Type} (col : α → Option ℚ) (comp_type : Nat)
    (thresholds : List ℚ) (row : α) : Bool :=
  if comp_type = 1 then optLe (col row) (thresholds.getD 0 0)
  else if comp_type = 2 then optGe (col row) (thresholds.getD 0 0)
  else if comp_type = 3 then
    optGe (col row) (thresholds.getD 0 0) && optLe (col row) (thresholds.getD 1 0)
  else (col row).isNone

/-- Pandas date comparison `value >= threshold` (NaT compares `False`). -/
def dateGe (v : Option Date) (t : Date) : Bool :=
  match v with
  | none => false
  | some x => Date.le t x

/-- Pandas date comparison `value <= threshold` (NaT compares `False`). -/
def dateLe (v : Option Date) (t : Date) : Bool :=
  match v with
  | none => false
  | some x => Date.le x t

/-- `CSVDataModel.date_filter` as a per-row predicate: 1 is on-or-after,
2 is on-or-before, 3 is between (inclusive), 4 compares the calendar year
only, anything else is the missing-value check. -/
def date_filter {α : Type} (col : α → Option Date) (comp_type : Nat)
    (thresholds : List Date) (row : α) : Bool :=
  if comp_type = 1 then dateGe (col row) (thresholds.getD 0 ⟨0, 0, 0⟩)
  else if comp_type = 2 then dateLe (col row) (thresholds.getD 0 ⟨0, 0, 0⟩)
  else if comp_type = 3 then
    dateGe (col row) (thresholds.getD 0 ⟨0, 0, 0⟩) &&
      dateLe (col row) (thresholds.getD 1 ⟨0, 0, 0⟩)
  else if comp_type = 4 then
    match col row with
    | none => false
    | some x => x.y == (thresholds.getD 0 ⟨0, 0, 0⟩).y
  else (col row).isNone

/-- Row of the user-friendly books view built by
`CSVDataModel.generate_main_books`.  The final `reindex` drops the
`author_id`/`genre_id` helper columns; they are kept here because the
Author/Genre filters read them before the reindex. -/
structure BooksViewRow where
  id : Nat
  title : String
  authors : String
  author_ids : List Nat
  genre : String
  genre_ids : List Nat
  rating : Option ℚ
  pages : Option ℚ
  times_read : Nat
deriving DecidableEq, Repr

/-- One row of the merged books view, for a book row `b` and its author and
genre aggregate rows.  `pd.merge(..., books_reading_agg, how="left")` can
leave `avg_rating`/`times_read` missing; the two `apply` lambdas then
default `times_read` to `0` and fall back from a missing `avg_rating` to the
manually entered `rating` column. -/
def mk_books_row (m : Model) (b : BookRow) (a : AuthorAgg) (g : GenreAgg) :
    BooksViewRow :=
  { id := b.id, title := b.title, authors := a.authors,
    author_ids := a.author_ids, genre := g.genre, genre_ids := g.genre_ids,
    pages := b.book_length,
    times_read :=
      match (create_books_reading_agg m).find? (fun e => e.book_id == b.id) with
      | none => 0
      | some e => e.times_read,
    rating :=
      match (create_books_reading_agg m).find? (fun e => e.book_id == b.id) with
      | none => b.rating
      | some e =>
        match e.avg_rating with
        | none => b.rating
        | some q => some q }

/-- The unfiltered books view: `books` inner-merged with the author
aggregate and the genre aggregate (both on `id == book_id`, preserving the
order of the left keys) and left-merged with the reading aggregate. -/
def books_view_base (m : Model) : List BooksViewRow :=
  m.books.flatMap (fun b =>
    ((create_book_authors_merge m).filter (fun a => a.book_id == b.id)).flatMap
      (fun a =>
        ((create_books_genres_merge m).filter (fun g => g.book_id == b.id)).map
          (fun g => mk_books_row m b a g)))

/-- The filter argument of `generate_main_books`: the `filter` string plus
the keyword arguments the chosen branch reads. -/
inductive BooksFilter where
  | nofilter
  | author (id_list : List Nat)
  | genre (id_list : List Nat)
  | title (id_list : List Nat)
  | rating (comp_type : Nat) (thresholds : List ℚ)
  | pages (comp_type : Nat) (thresholds : List ℚ)
  | timesRead (comp_type : Nat) (thresholds : List ℚ)

/-- `CSVDataModel.generate_main_books`: build the merged view, then apply
the selected row filter.  (The trailing `main_books.sort_values("Title")` in
the source discards its result, so the view is not re-sorted.) -/
def generate_main_books (m : Model) (f : BooksFilter) : List BooksViewRow :=
  let base := books_view_base m
  match f with
  | .nofilter => base
  | .author id_list =>
    base.filter (fun v => check_all_in_set id_list v.author_ids)
  | .genre id_list =>
    base.filter (fun v => check_all_in_set id_list v.genre_ids)
  | .title id_list => base.filter (fun v => decide (v.id ∈ id_list))
  | .rating c th => base.filter (numeric_filter (fun v => v.rating) c th)
  | .pages c th => base.filter (numeric_filter (fun v => v.pages) c th)
  | .timesRead c th =>
    base.filter (numeric_filter (fun v => some (v.times_read : ℚ)) c th)

/-- Row of the user-friendly reading view built by
`CSVDataModel.generate_main_reading` (the helper columns `book_id` and
`author_ids` are read by filters before the final `reindex` drops them). -/
structure ReadingViewRow where
  id : Nat
  book_id : Nat
  title : String
  authors : String
  author_ids : List Nat
  start : Option Date
  finish : Option Date
  rating : Option ℚ
  read_time : Option Int
deriving DecidableEq, Repr

/-- The unfiltered reading view before sorting: `reading` inner-merged with
the author aggregate on `book_id` and with `books[["id", "title"]]` on
`book_id == id`, plus the derived `read_time` column
(`finish_date - start_date` in days, missing unless both dates are
present). -/
def reading_view_base (m : Model) : List ReadingViewRow :=
  m.reading.flatMap (fun r =>
    ((create_book_authors_merge m).filter (fun a => a.book_id == r.book_id)).flatMap
      (fun a =>
        ((m.books.filter (fun b => b.id == r.book_id)).map (fun b =>
          { id := r.id, book_id := r.book_id, title := b.title,
            authors := a.authors, author_ids := a.author_ids,
            start := r.start_date, finish := r.finish_date,
            rating := r.rating,
            read_time :=
              match r.start_date, r.finish_date with
              | some s, some fin =>
                some ((Date.toOrdinal fin : Int) - (Date.toOrdinal s : Int))
              | _, _ => none }))))

/-- The filter argument of `generate_main_reading`. -/
inductive ReadingFilter where
  | nofilter
  | author (id_list : List Nat)
  | title (id_list : List Nat)
  | start (comp_type : Nat) (thresholds : List Date)
  | finish (comp_type : Nat) (thresholds : List Date)
  | readTime (comp_type : Nat) (thresholds : List ℚ)
  | rating (comp_type : Nat) (thresholds : List ℚ)

/-- The row filter of `generate_main_reading` (the Title branch filters on
the `book_id` column). -/
def apply_reading_filter (f : ReadingFilter) (l : List ReadingViewRow) :
    List ReadingViewRow :=
  match f with
  | .nofilter => l
  | .author id_list =>
    l.filter (fun v => check_all_in_set id_list v.author_ids)
  | .title id_list => l.filter (fun v => decide (v.book_id ∈ id_list))
  | .start c th => l.filter (date_filter (fun v => v.start) c th)
  | .finish c th => l.filter (date_filter (fun v => v.finish) c th)
  | .readTime c th =>
    l.filter (numeric_filter (fun v => v.read_time.map (fun i => (i : ℚ))) c th)
  | .rating c th => l.filter (numeric_filter (fun v => v.rating) c th)

/-- Ascending order on the `Finish` column with missing dates sorted last
(`sort_values` default `na_position="last"`). -/
def finishLe (a b : Option Date) : Bool :=
  match a, b with
  | none, none => true
  | none, some _ => false
  | some _, none => true
  | some x, some y => Date.le x y

/-- Insert a row into a list sorted by `finishLe`, after every row whose key
is `≤` its key (so rows with equal keys keep their relative order, matching
the stable behaviour of the sort on the small frames this tool handles). -/
def insertFinish (r : ReadingViewRow) : List ReadingViewRow → List ReadingViewRow
  | [] => [r]
  | x :: xs =>
    if finishLe x.finish r.finish then x :: insertFinish r xs else r :: x :: xs

/-- `main_reading.sort_values("Finish", inplace=True)`: sort the view rows
ascending by finish date, missing finish dates last. -/
def sortByFinish (l : List ReadingViewRow) : List ReadingViewRow :=
  l.foldl (fun acc r => insertFinish r acc) []

/-- `CSVDataModel.generate_main_reading`: build the merged view, apply the
selected filter, then sort by the `Finish` column. -/
def generate_main_reading (m : Model) (f : ReadingFilter) : List ReadingViewRow :=
  sortByFinish (apply_reading_filter f (reading_view_base m))

/-- Boolean pairwise-adjacent check: `pairwiseChain R l` holds when every
adjacent pair of `l` satisfies `R`. -/
def pairwiseChain {α : Type} (R : α → α → Bool) : List α → Bool
  | [] => true
  | [_] => true
  | a :: b :: t => R a b && pairwiseChain R (b :: t)

/-- Insert a key/value pair into a Python dict (embedded as an
insertion-ordered association list): an existing key keeps its position and
gets the new value, a new key is appended. -/
def dict_insert (d : List (String × Nat)) (k : String) (v : Nat) :
    List (String × Nat) :=
  if d.any (fun p => p.1 == k) then
    d.map (fun p => if p.1 == k then (k, v) else p)
  else d ++ [(k, v)]

/-- `CSVDataModel.get_books_dict` with `selection = None`:
`dict(zip(books["title"], books["id"]))`, i.e. insert the (title, id) pairs
in table order with later pairs overwriting earlier ones. -/
def get_books_dict (books : List BookRow) : List (String × Nat) :=
  books.foldl (fun d b => dict_insert d b.title b.id) []

/-- Python dict lookup on the association-list embedding. -/
def dict_lookup (d : List (String × Nat)) (k : String) : Option Nat :=
  (d.find? (fun p => p.1 == k)).map (fun p => p.2)

/-- The id of the last row of `books` (in table order) whose title is `t`. -/
def last_id_for (books : List BookRow) (t : String) : Option Nat :=
  (books.reverse.find? (fun b => b.title == t)).map (fun b => b.id)

/-- `CSVDataModel.delete_entry`: drop every row whose match column equals
the match value (an empty match set drops nothing), keeping the rest in
order.  The column-name argument is embedded as a selector function. -/
def delete_entry {α : Type} (t : List α) (col : α → Nat) (v : Nat) : List α :=
  t.filter (fun r => !(col r == v))

/-- `CSVDataModel.edit_entry`: look up the *first* matching row position
(`.index[0]`, which raises an uncaught `IndexError` when no row matches —
embedded as `none`) and overwrite the target column there (the
column/value pair to write is embedded as an update function). -/
def edit_entry {α : Type} (t : List α) (col : α → Nat) (v : Nat)
    (upd : α → α) : Option (List α) :=
  match t.findIdx? (fun r => col r == v) with
  | none => none
  | some i =>
    match t.get? i with
    | none => none
    | some r => some (t.set i (upd r))

/-- The probing loop of `CSVDataModel.generate_id`: starting from
candidate `n`, return the first candidate not in `ids`.  The source loops
unboundedly; `fuel` is an upper bound on the number of iterations, and
`generate_id` supplies a fuel large enough that the loop always finishes. -/
def probeId (ids : List Nat) : Nat → Nat → Nat
  | 0, n => n
  | fuel + 1, n => if n ∈ ids then probeId ids fuel (n + 1) else n

/-- `CSVDataModel.generate_id`: the smallest candidate, probing upward from
1, that is not among the existing ids of the table. -/
def generate_id (ids : List Nat) : Nat := probeId ids (ids.length + 1) 1

/-- `CSVDataModel.add_entry` on a table with a surrogate key: set the new
entry's id to `generate_id` and append the row.  `mk n` is the new row with
its id column set to `n`. -/
def add_entry {α : Type} (t : List α) (idOf : α → Nat) (mk : Nat → α) :
    List α :=
  t ++ [mk (generate_id (t.map idOf))]

/-- `manage_csv.delete_book`: the compound book deletion.  It deletes from
`books` by id and cascades to `books_authors`, `books_genres` and `reading`
by `book_id`; the `books_series` cascade line is commented out in the
source, so that table is left untouched. -/
def delete_book (m : Model) (book_id : Nat) : Model :=
  let m1 := { m with books := delete_entry m.books (fun b => b.id) book_id }
  let m2 := { m1 with books_authors := delete_entry m1.books_authors (fun r => r.book_id) book_id }
  let m3 := { m2 with books_genres := delete_entry m2.books_genres (fun r => r.book_id) book_id }
  { m3 with reading := delete_entry m3.reading (fun r => r.book_id) book_id }

/-- A mutation step on a single table: `add_entry` with a row constructor,
or `delete_entry` on some match column/value. -/
inductive TableOp (α : Type) where
  | add (mk : Nat → α)
  | del (col : α → Nat) (v : Nat)

/-- Apply one mutation step to a table whose id column is `idOf`. -/
def applyOp {α : Type} (idOf : α → Nat) (t : List α) : TableOp α → List α
  | .add mk => add_entry t idOf mk
  | .del col v => delete_entry t col v

/-- Apply a sequence of mutation steps in order. -/
def applyOps {α : Type} (idOf : α → Nat) (t : List α)
    (ops : List (TableOp α)) : List α :=
  ops.foldl (applyOp idOf) t

/-- Well-formedness of a step: an added row carries exactly the id that
`add_entry` assigned to it (as the source does by writing
`entry_details["id"]` before appending). -/
def opWF {α : Type} (idOf : α → Nat) : TableOp α → Prop
  | .add mk => ∀ n, idOf (mk n) = n
  | .del _ _ => True

/-- A view-building call on the data model. -/
inductive Cmd where
  | viewBooks (f : BooksFilter)
  | viewReading (f : ReadingFilter)

/-- The result of a view-building call. -/
inductive Output where
  | booksView (rows : List BooksViewRow)
  | readingView (rows : List ReadingViewRow)

/-- State-threaded embedding of a view-building call: the source methods
`generate_main_books`/`generate_main_reading` and every helper they call
never assign into `self.model_data` (each in-place pandas call acts on a
derived frame), so the call returns the table set exactly as it received
it, together with the view. -/
def run_view (m : Model) : Cmd → Model × Output
  | .viewBooks f => (m, .booksView (generate_main_books m f))
  | .viewReading f => (m, .readingView (generate_main_reading m f))

/-- Modelled from the spec: "rounded to one decimal", i.e. round to the
nearest tenth. -/
def spec_round1 (q : ℚ) : ℚ := ((round (q * 10) : ℤ) : ℚ) / 10

/-- Adjacent-pair ordering asserted by the spec for the reading view:
ascending by finish date with missing dates last and, for equal finish
dates, ascending by start date. -/
def claim_reading_order (a b : ReadingViewRow) : Bool :=
  finishLe a.finish b.finish &&
    (!(a.finish == b.finish) || finishLe a.start b.start)

/-- Example table set: one fully-linked book whose id 1 also appears in
`books_series`. -/
def exC1 : Model :=
  { authors := [⟨1, "A", "", "B", ""⟩],
    books := [⟨1, "T", none, none⟩],
    genres := [⟨1, "G"⟩],
    reading := [⟨1, 1, none, none, none⟩],
    series := [⟨1, "S"⟩],
    books_authors := [⟨1, 1⟩],
    books_genres := [⟨1, 1⟩],
    books_series := [⟨1, 1, 1⟩] }

/-- Example table set: one book with a manual rating of 4 and reading-event
ratings 3, 3 and 4, whose mean 10/3 is not a one-decimal value. -/
def exC2b : Model :=
  { authors := [⟨1, "", "", "X", ""⟩],
    books := [⟨1, "T", none, some 4⟩],
    genres := [⟨1, "G"⟩],
    reading := [⟨1, 1, none, none, some 3⟩, ⟨2, 1, none, none, some 3⟩,
                ⟨3, 1, none, none, some 4⟩],
    series := [],
    books_authors := [⟨1, 1⟩],
    books_genres := [⟨1, 1⟩],
    books_series := [] }

/-- Example table set from the spec scenario: a book with manual rating 4
and two reading events rated 3 and 5 (mean 4). -/
def exC2w : Model :=
  { authors := [⟨1, "Frank", "", "Herbert", ""⟩],
    books := [⟨1, "Dune", some 412, some 4⟩],
    genres := [⟨1, "SciFi"⟩],
    reading := [⟨1, 1, none, none, some 3⟩, ⟨2, 1, none, none, some 5⟩],
    series := [],
    books_authors := [⟨1, 1⟩],
    books_genres := [⟨1, 1⟩],
    books_series := [] }

/-- The books-view row that `exC2w` produces. -/
def vrowC2 : BooksViewRow :=
  { id := 1, title := "Dune", authors := "Frank Herbert", author_ids := [1],
    genre := "SciFi", genre_ids := [1], rating := some 4, pages := some 412,
    times_read := 0 }

/-- Example table set: one book with no author links and no genre links. -/
def exC3 : Model :=
  { authors := [], books := [⟨1, "Orphan", none, none⟩], genres := [],
    reading := [], series := [], books_authors := [], books_genres := [],
    books_series := [] }

/-- Example table set: one book with an author link and a genre link but no
reading rows. -/
def exC3w : Model :=
  { authors := [⟨1, "", "", "X", ""⟩],
    books := [⟨1, "T", none, none⟩],
    genres := [⟨1, "G"⟩],
    reading := [], series := [],
    books_authors := [⟨1, 1⟩],
    books_genres := [⟨1, 1⟩],
    books_series := [] }

/-- The books-view row that `exC3w` produces. -/
def vrowC9 : BooksViewRow :=
  { id := 1, title := "T", authors := "X", author_ids := [1],
    genre := "G", genre_ids := [1], rating := none, pages := none,
    times_read := 0 }

/-- Example books table with ids 1, 2, 3. -/
def exT4 : List BookRow :=
  [⟨1, "a", none, none⟩, ⟨2, "b", none, none⟩, ⟨3, "c", none, none⟩]

/-- Row constructor assigning the new id, as `add_entry` writes
`entry_details["id"]`. -/
def mkB4 : Nat → BookRow := fun n => ⟨n, "new", none, none⟩

/-- Example books table with ids 1 and 2 (no row has id 9). -/
def exC5 : List BookRow := [⟨1, "A", none, none⟩, ⟨2, "B", none, none⟩]

/-- Example table set: two reading events for the same book with equal
finish dates whose start dates are in descending table order. -/
def exC7 : Model :=
  { authors := [⟨1, "", "", "X", ""⟩],
    books := [⟨1, "T", none, none⟩],
    genres := [],
    reading := [⟨1, 1, some ⟨2021, 5, 1⟩, some ⟨2021, 6, 1⟩, none⟩,
                ⟨2, 1, some ⟨2021, 3, 1⟩, some ⟨2021, 6, 1⟩, none⟩],
    series := [],
    books_authors := [⟨1, 1⟩],
    books_genres := [],
    books_series := [] }

/-- Example books table with a duplicated title. -/
def exBooks10 : List BookRow :=
  [⟨1, "Dune", none, none⟩, ⟨2, "Dune", none, none⟩]

lemma check_aux (s : List Nat) (l : List Nat) (b : Bool) :
    l.foldl (fun acc e => if e ∈ s then true else acc) b =
      (b || l.any (fun e => decide (e ∈ s))) := by
  induction l generalizing b with
  | nil => simp
  | cons x xs ih =>
    rw [List.foldl_cons, ih, List.any_cons]
    by_cases hx : x ∈ s <;>
      simp [hx, Bool.or_comm, Bool.or_assoc, Bool.or_left_comm]

lemma check_all_in_set_iff (l s : List Nat) :
    check_all_in_set l s = true ↔ ∃ x ∈ l, x ∈ s := by
  rw [check_all_in_set, check_aux]
  simp

lemma mem_insertKey (x k : Nat) (l : List Nat) :
    x ∈ insertKey k l ↔ x = k ∨ x ∈ l := by
  induction l with
  | nil => simp [insertKey]
  | cons a t ih =>
    by_cases h1 : k < a
    · simp [insertKey, h1]
    · by_cases h2 : k = a
      · subst h2; simp [insertKey, h1]
      · simp [insertKey, h1, h2, ih]
        tauto

lemma mem_sortKeys (x : Nat) (l : List Nat) : x ∈ sortKeys l ↔ x ∈ l := by
  induction l with
  | nil => simp [sortKeys]
  | cons a t ih =>
    show x ∈ insertKey a (sortKeys t) ↔ x ∈ a :: t
    rw [mem_insertKey, ih]
    simp

lemma find?_keysMap {β : Type} (mk : Nat → β) (bk : β → Nat)
    (h : ∀ x, bk (mk x) = x) (keys : List Nat) (k : Nat) :
    (keys.map mk).find? (fun e => bk e == k) =
      if k ∈ keys then some (mk k) else none := by
  induction keys with
  | nil => simp
  | cons a t ih =>
    by_cases ha : a = k
    · subst ha; simp [List.find?_cons, h]
    · have ha2 : ¬ k = a := fun hh => ha hh.symm
      simp [List.find?_cons, h, ha, ih, ha2]

lemma reading_agg_find (m : Model) (k : Nat) :
    (create_books_reading_agg m).find? (fun e => e.book_id == k) =
      if k ∈ sortKeys (m.reading.map (fun r => r.book_id)) then
        some (mk_reading_agg m k)
      else none :=
  find?_keysMap (mk_reading_agg m) (fun e => e.book_id) (fun _ => rfl) _ k

lemma reading_group_eq_nil (m : Model) (k : Nat)
    (h : k ∉ m.reading.map (fun r => r.book_id)) : reading_group m k = [] := by
  rw [reading_group, List.filter_eq_nil_iff]
  intro r hr hk
  rw [beq_iff_eq] at hk
  exact h (List.mem_map.mpr ⟨r, hr, hk⟩)

lemma mk_books_row_rating (m : Model) (b : BookRow) (a : AuthorAgg) (g : GenreAgg) :
    (mk_books_row m b a g).rating =
      (if ((reading_group m b.id).filterMap (fun r => r.rating)).isEmpty then
        b.rating
      else some (((reading_group m b.id).filterMap (fun r => r.rating)).sum /
        (((reading_group m b.id).filterMap (fun r => r.rating)).length : ℚ))) := by
  simp only [mk_books_row, reading_agg_find]
  by_cases hk : b.id ∈ sortKeys (m.reading.map fun r => r.book_id)
  · simp only [hk, if_true, mk_reading_agg]
    by_cases he : ((reading_group m b.id).filterMap fun r => r.rating).isEmpty <;>
      simp [he]
  · have h0 : reading_group m b.id = [] :=
      reading_group_eq_nil m b.id (by rwa [mem_sortKeys] at hk)
    simp [hk, h0]

lemma mk_books_row_times_read (m : Model) (b : BookRow) (a : AuthorAgg)
    (g : GenreAgg) :
    (mk_books_row m b a g).times_read =
      ((reading_group m b.id).filterMap (fun r => r.finish_date)).length := by
  simp only [mk_books_row, reading_agg_find]
  by_cases hk : b.id ∈ sortKeys (m.reading.map fun r => r.book_id)
  · simp [hk, mk_reading_agg]
  · have h0 : reading_group m b.id = [] :=
      reading_group_eq_nil m b.id (by rwa [mem_sortKeys] at hk)
    simp [hk, h0]

lemma mem_books_view (m : Model) (v : BooksViewRow) :
    v ∈ books_view_base m ↔
      ∃ b ∈ m.books, ∃ a ∈ (create_book_authors_merge m).filter
          (fun x => x.book_id == b.id),
        ∃ g ∈ (create_books_genres_merge m).filter (fun x => x.book_id == b.id),
          mk_books_row m b a g = v := by
  simp [books_view_base, List.mem_flatMap, List.mem_map]

lemma author_agg_mem (m : Model) (k : Nat)
    (h : ∃ ba ∈ m.books_authors, ba.book_id = k ∧
      ∃ a ∈ m.authors, a.id = ba.author_id) :
    mk_author_agg m k ∈
      (create_book_authors_merge m).filter (fun x => x.book_id == k) := by
  obtain ⟨ba, hba, hbk, a, ha, hid⟩ := h
  have hfmt : (⟨a.id,
      merge_names a.first_name a.middle_name a.last_name a.suffix⟩ : AuthorFmt)
      ∈ (create_authors_formatted m).filter (fun x => x.id == ba.author_id) := by
    rw [List.mem_filter]
    exact ⟨List.mem_map.mpr ⟨a, ha, rfl⟩, by simp [hid]⟩
  have hpair : (⟨ba.book_id, ba.author_id,
      merge_names a.first_name a.middle_name a.last_name a.suffix⟩ : AuthorPair)
      ∈ books_authors_joined m :=
    List.mem_flatMap.mpr ⟨ba, hba, List.mem_map.mpr ⟨_, hfmt, rfl⟩⟩
  have hkey : k ∈ sortKeys ((books_authors_joined m).map (fun p => p.book_id)) := by
    rw [mem_sortKeys]
    exact List.mem_map.mpr ⟨_, hpair, hbk⟩
  rw [List.mem_filter]
  exact ⟨List.mem_map.mpr ⟨k, hkey, rfl⟩, by simp [mk_author_agg]⟩

lemma genre_agg_mem (m : Model) (k : Nat)
    (h : ∃ bg ∈ m.books_genres, bg.book_id = k ∧
      ∃ g ∈ m.genres, g.id = bg.genre_id) :
    mk_genre_agg m k ∈
      (create_books_genres_merge m).filter (fun x => x.book_id == k) := by
  obtain ⟨bg, hbg, hbk, g, hg, hid⟩ := h
  have hfmt : g ∈ m.genres.filter (fun x => x.id == bg.genre_id) := by
    rw [List.mem_filter]
    exact ⟨hg, by simp [hid]⟩
  have hpair : (⟨bg.book_id, bg.genre_id, g.name⟩ : GenrePair)
      ∈ books_genres_joined m :=
    List.mem_flatMap.mpr ⟨bg, hbg, List.mem_map.mpr ⟨_, hfmt, rfl⟩⟩
  have hkey : k ∈ sortKeys ((books_genres_joined m).map (fun p => p.book_id)) := by
    rw [mem_sortKeys]
    exact List.mem_map.mpr ⟨_, hpair, hbk⟩
  rw [List.mem_filter]
  exact ⟨List.mem_map.mpr ⟨k, hkey, rfl⟩, by simp [mk_genre_agg]⟩

lemma filter_mono_le (t : List Nat) (n : Nat) :
    (t.filter (fun x => decide (n + 1 ≤ x))).length ≤
      (t.filter (fun x => decide (n ≤ x))).length := by
  induction t with
  | nil => simp
  | cons a t ih =>
    by_cases h1 : n + 1 ≤ a
    · have h2 : n ≤ a := by omega
      simp [List.filter_cons, h1, h2]
      omega
    · by_cases h2 : n ≤ a <;> simp [List.filter_cons, h1, h2] <;> omega

lemma filter_ge_succ_lt (ids : List Nat) (n : Nat) (h : n ∈ ids) :
    (ids.filter (fun x => decide (n + 1 ≤ x))).length <
      (ids.filter (fun x => decide (n ≤ x))).length := by
  induction ids with
  | nil => cases h
  | cons a t ih =>
    rcases List.mem_cons.mp h with rfl | ht
    · have h1 : ¬ (n + 1 ≤ n) := by omega
      have h2 : n ≤ n := le_refl n
      simp [List.filter_cons, h1, h2]
      have := filter_mono_le t n
      omega
    · by_cases h1 : n + 1 ≤ a
      · have h2 : n ≤ a := by omega
        simp [List.filter_cons, h1, h2]
        have := ih ht
        omega
      · by_cases h2 : n ≤ a <;> simp [List.filter_cons, h1, h2] <;>
          have := ih ht <;> omega

lemma probeId_spec (ids : List Nat) :
    ∀ (fuel n : Nat), (ids.filter (fun x => decide (n ≤ x))).length < fuel →
      (probeId ids fuel n ∉ ids ∧ n ≤ probeId ids fuel n ∧
        ∀ k, n ≤ k → k < probeId ids fuel n → k ∈ ids) := by
  intro fuel
  induction fuel with
  | zero => intro n h; exact absurd h (Nat.not_lt_zero _)
  | succ f ih =>
    intro n h
    by_cases hn : n ∈ ids
    · have hlt := filter_ge_succ_lt ids n hn
      have hf : (ids.filter (fun x => decide (n + 1 ≤ x))).length < f := by omega
      have h3 := ih (n + 1) hf
      simp only [probeId, if_pos hn]
      refine ⟨h3.1, by omega, ?_⟩
      intro k hk1 hk2
      rcases Nat.eq_or_lt_of_le hk1 with rfl | hk
      · exact hn
      · exact h3.2.2 k (by omega) hk2
    · simp only [probeId, if_neg hn]
      exact ⟨hn, le_refl n, fun k hk1 hk2 => absurd hk2 (by omega)⟩

lemma generate_id_spec (ids : List Nat) :
    1 ≤ generate_id ids ∧ generate_id ids ∉ ids ∧
      ∀ k, 1 ≤ k → k < generate_id ids → k ∈ ids := by
  have hfuel : (ids.filter (fun x => decide (1 ≤ x))).length < ids.length + 1 := by
    have := List.length_filter_le (fun x => decide (1 ≤ x)) ids
    omega
  have h := probeId_spec ids (ids.length + 1) 1 hfuel
  exact ⟨h.2.1, h.1, h.2.2⟩

lemma applyOp_nodup {α : Type} (idOf : α → Nat) (t : List α) (op : TableOp α)
    (hwf : opWF idOf op) (h : (t.map idOf).Nodup) :
    ((applyOp idOf t op).map idOf).Nodup := by
  cases op with
  | add mk =>
    rw [applyOp, add_entry, List.map_append, List.nodup_append]
    refine ⟨h, List.nodup_singleton _, ?_⟩
    intro x hx hy
    simp only [List.map_cons, List.map_nil, List.mem_singleton] at hy
    rw [hwf] at hy
    subst hy
    exact (generate_id_spec (t.map idOf)).2.1 hx
  | del col v =>
    have hs : (delete_entry t col v).Sublist t := List.filter_sublist t
    exact (hs.map idOf).nodup h

lemma applyOps_nodup {α : Type} (idOf : α → Nat) :
    ∀ (ops : List (TableOp α)) (t : List α),
      (∀ op ∈ ops, opWF idOf op) → (t.map idOf).Nodup →
      ((applyOps idOf t ops).map idOf).Nodup := by
  intro ops
  induction ops with
  | nil => intro t _ h; exact h
  | cons op rest ih =>
    intro t hwf h
    rw [applyOps, List.foldl_cons]
    exact ih (applyOp idOf t op)
      (fun o ho => hwf o (List.mem_cons_of_mem _ ho))
      (applyOp_nodup idOf t op (hwf op (List.mem_cons_self _ _)) h)

lemma add_after_delete {α : Type} (idOf : α → Nat) (mk : Nat → α)
    (t2 : List α) (N : Nat)
    (hN : 1 ≤ N)
    (hall : ∀ k, 1 ≤ k → k < N → k ∈ t2.map idOf)
    (habs : N ∉ t2.map idOf) :
    add_entry t2 idOf mk = t2 ++ [mk N] := by
  have hspec := generate_id_spec (t2.map idOf)
  have hg : generate_id (t2.map idOf) = N := by
    rcases Nat.lt_trichotomy (generate_id (t2.map idOf)) N with hlt | heq | hgt
    · exact absurd (hall _ hspec.1 hlt) hspec.2.1
    · exact heq
    · exact absurd (hspec.2.2 N hN hgt) habs
  rw [add_entry, hg]

lemma findIdx?_none_of_no_match {α : Type} (p : α → Bool) :
    ∀ (l : List α) (i : Nat), (∀ r ∈ l, ¬ p r = true) → l.findIdx? p i = none := by
  intro l
  induction l with
  | nil => intro i _; rfl
  | cons x t ih =>
    intro i h
    rw [List.findIdx?_cons, if_neg (h x (List.mem_cons_self _ _))]
    exact ih (i + 1) (fun r hr => h r (List.mem_cons_of_mem _ hr))

lemma Date.le_total_bool (a b : Date) : Date.le a b = true ∨ Date.le b a = true := by
  simp [Date.le, Bool.or_eq_true, Bool.and_eq_true, decide_eq_true_eq, beq_iff_eq]
  omega

lemma finishLe_total (a b : Option Date) :
    finishLe a b = true ∨ finishLe b a = true := by
  cases a with
  | none => cases b <;> simp [finishLe]
  | some x =>
    cases b with
    | none => simp [finishLe]
    | some y => exact Date.le_total_bool x y

lemma insertFinish_sorted (r : ReadingViewRow) :
    ∀ l : List ReadingViewRow,
      pairwiseChain (fun a b => finishLe a.finish b.finish) l = true →
      pairwiseChain (fun a b => finishLe a.finish b.finish) (insertFinish r l) = true := by
  intro l
  induction l with
  | nil => intro _; rfl
  | cons x xs ih =>
    intro h
    by_cases hc : finishLe x.finish r.finish = true
    · cases xs with
      | nil =>
        simp [insertFinish, hc, pairwiseChain]
      | cons y ys =>
        have h1 : finishLe x.finish y.finish = true := by
          have h0 := h
          simp [pairwiseChain, Bool.and_eq_true] at h0
          exact h0.1
        have h2 : pairwiseChain (fun a b => finishLe a.finish b.finish) (y :: ys) = true := by
          have h0 := h
          simp [pairwiseChain, Bool.and_eq_true] at h0
          simp [pairwiseChain, Bool.and_eq_true, h0.2]
        have htail := ih h2
        rw [show insertFinish r (x :: y :: ys) =
          (if finishLe x.finish r.finish then x :: insertFinish r (y :: ys)
           else r :: x :: y :: ys) from rfl, if_pos hc]
        by_cases hy : finishLe y.finish r.finish = true
        · rw [show insertFinish r (y :: ys) =
            (if finishLe y.finish r.finish then y :: insertFinish r ys
             else r :: y :: ys) from rfl, if_pos hy]
          rw [show insertFinish r (y :: ys) =
            (if finishLe y.finish r.finish then y :: insertFinish r ys
             else r :: y :: ys) from rfl, if_pos hy] at htail
          simp [pairwiseChain, Bool.and_eq_true, h1]
          simpa [pairwiseChain, Bool.and_eq_true] using htail
        · rw [show insertFinish r (y :: ys) =
            (if finishLe y.finish r.finish then y :: insertFinish r ys
             else r :: y :: ys) from rfl, if_neg hy]
          have hr : finishLe r.finish y.finish = true := by
            rcases finishLe_total r.finish y.finish with hh | hh
            · exact hh
            · exact absurd hh hy
          simp [pairwiseChain, Bool.and_eq_true, hc, hr]
          simp [pairwiseChain, Bool.and_eq_true] at h2
          exact h2
    · rw [show insertFinish r (x :: xs) =
        (if finishLe x.finish r.finish then x :: insertFinish r xs
         else r :: x :: xs) from rfl, if_neg hc]
      have hr : finishLe r.finish x.finish = true := by
        rcases finishLe_total r.finish x.finish with hh | hh
        · exact hh
        · exact absurd hh hc
      simp [pairwiseChain, Bool.and_eq_true, hr]
      simpa [pairwiseChain, Bool.and_eq_true] using h

lemma sortByFinish_sorted (l : List ReadingViewRow) :
    pairwiseChain (fun a b => finishLe a.finish b.finish) (sortByFinish l) = true := by
  rw [sortByFinish]
  have main : ∀ (l2 : List ReadingViewRow) (acc : List ReadingViewRow),
      pairwiseChain (fun a b => finishLe a.finish b.finish) acc = true →
      pairwiseChain (fun a b => finishLe a.finish b.finish)
        (l2.foldl (fun acc r => insertFinish r acc) acc) = true := by
    intro l2
    induction l2 with
    | nil => intro acc h; exact h
    | cons x xs ih =>
      intro acc h
      rw [List.foldl_cons]
      exact ih _ (insertFinish_sorted x acc h)
  exact main l [] rfl

lemma lookup_map_ne (k t : String) (v : Nat) (hne : t ≠ k) :
    ∀ d : List (String × Nat),
      dict_lookup (d.map (fun p => if p.1 == k then (k, v) else p)) t =
        dict_lookup d t := by
  have hkt : ¬ ((k : String) == t) = true := by
    simp only [beq_iff_eq]
    exact fun h => hne h.symm
  intro d
  induction d with
  | nil => rfl
  | cons q d2 ih =>
    simp only [List.map_cons]
    by_cases hq : q.1 = k
    · have hqt : ¬ (q.1 == t) = true := by
        simp only [beq_iff_eq, hq]
        exact fun h => hne h.symm
      rw [show (if (q.1 == k) = true then ((k, v) : String × Nat) else q) = (k, v)
        from by simp [hq]]
      have hkt2 : ((k : String) == t) = false := Bool.not_eq_true _ |>.mp hkt
      have hqt2 : (q.1 == t) = false := Bool.not_eq_true _ |>.mp hqt
      simp only [dict_lookup, List.find?_cons, hkt2, hqt2]
      exact ih
    · rw [show (if (q.1 == k) = true then ((k, v) : String × Nat) else q) = q
        from by simp [hq]]
      by_cases hqt : (q.1 == t) = true
      · simp only [dict_lookup, List.find?_cons, hqt]
      · have hqt2 : (q.1 == t) = false := Bool.not_eq_true _ |>.mp hqt
        simp only [dict_lookup, List.find?_cons, hqt2]
        exact ih

lemma lookup_map_overwrite (k : String) (v : Nat) :
    ∀ d : List (String × Nat), d.any (fun p => p.1 == k) = true →
      dict_lookup (d.map (fun p => if p.1 == k then (k, v) else p)) k =
        some v := by
  intro d
  induction d with
  | nil => intro h; cases h
  | cons q d2 ih =>
    intro hany
    by_cases hq : q.1 = k
    · simp [dict_lookup, List.find?_cons, hq]
    · have hany2 : d2.any (fun p => p.1 == k) = true := by
        rcases List.any_eq_true.mp hany with ⟨p, hp, hpk⟩
        rcases List.mem_cons.mp hp with rfl | hp2
        · exact absurd (by simpa using hpk) hq
        · exact List.any_eq_true.mpr ⟨p, hp2, hpk⟩
      simp only [List.map_cons]
      rw [show (if (q.1 == k) = true then ((k, v) : String × Nat) else q) = q
        from by simp [hq]]
      have hqk2 : (q.1 == k) = false := by simp [hq]
      simp only [dict_lookup, List.find?_cons, hqk2]
      exact ih hany2

lemma dict_lookup_insert (d : List (String × Nat)) (k t : String) (v : Nat) :
    dict_lookup (dict_insert d k v) t =
      if t = k then some v else dict_lookup d t := by
  by_cases hany : d.any (fun p => p.1 == k) = true
  · rw [dict_insert, if_pos hany]
    by_cases ht : t = k
    · subst ht
      rw [if_pos rfl]
      exact lookup_map_overwrite t v d hany
    · rw [if_neg ht]
      exact lookup_map_ne k t v ht d
  · rw [dict_insert, if_neg hany, dict_lookup, List.find?_append]
    by_cases ht : t = k
    · subst ht
      have hd : d.find? (fun p => p.1 == t) = none := by
        rcases hfind : d.find? (fun p => p.1 == t) with _ | p
        · exact hfind
        · have hp := List.find?_some hfind
          have hmem := List.mem_of_find?_eq_some hfind
          exact absurd (List.any_eq_true.mpr ⟨p, hmem, hp⟩) hany
      rw [hd]
      simp [List.find?_cons]
    · have hkt : ((k : String) == t) = false := by
        rw [beq_eq_false_iff_ne]
        exact fun h => ht h.symm
      have hs : ([((k : String), v)].find? (fun p => p.1 == t)) = none := by
        simp only [List.find?_cons, hkt]
        rfl
      rw [hs]
      simp [dict_lookup, ht]

lemma keys_insert (d : List (String × Nat)) (k : String) (v : Nat) :
    (dict_insert d k v).map Prod.fst =
      if d.any (fun p => p.1 == k) = true then d.map Prod.fst
      else d.map Prod.fst ++ [k] := by
  by_cases hany : d.any (fun p => p.1 == k) = true
  · rw [dict_insert, if_pos hany, if_pos hany, List.map_map]
    apply List.map_congr_left
    intro p _
    by_cases hp : p.1 = k
    · simp [hp]
    · simp [hp]
  · rw [dict_insert, if_neg hany, if_neg hany, List.map_append]
    rfl

lemma option_map_or {α β : Type} (f : α → β) (a b : Option α) :
    (a.or b).map f = (a.map f).or (b.map f) := by
  cases a <;> rfl

lemma get_books_dict_invariant :
    ∀ (bs : List BookRow) (d : List (String × Nat)),
      (d.map Prod.fst).Nodup →
      (((bs.foldl (fun acc b => dict_insert acc b.title b.id) d).map Prod.fst).Nodup ∧
        ∀ t, dict_lookup (bs.foldl (fun acc b => dict_insert acc b.title b.id) d) t =
          (last_id_for bs t).or (dict_lookup d t)) := by
  intro bs
  induction bs with
  | nil =>
    intro d hd
    refine ⟨hd, fun t => ?_⟩
    simp [last_id_for, Option.none_or]
  | cons b bs ih =>
    intro d hd
    have hd2 : ((dict_insert d b.title b.id).map Prod.fst).Nodup := by
      rw [keys_insert]
      by_cases hany : (d.any fun p => p.1 == b.title) = true
      · rw [if_pos hany]; exact hd
      · rw [if_neg hany, List.nodup_append]
        refine ⟨hd, List.nodup_singleton _, ?_⟩
        intro x hx hy
        simp only [List.mem_singleton] at hy
        subst hy
        rcases List.mem_map.mp hx with ⟨p, hp, hpx⟩
        exact hany (List.any_eq_true.mpr ⟨p, hp, by simp [hpx]⟩)
    obtain ⟨h1, h2⟩ := ih (dict_insert d b.title b.id) hd2
    rw [List.foldl_cons]
    refine ⟨h1, fun t => ?_⟩
    rw [h2 t, dict_lookup_insert]
    simp only [last_id_for, List.reverse_cons, List.find?_append, option_map_or]
    rw [show (bs.reverse.find? (fun x => x.title == t)).map (fun x => x.id) =
      last_id_for bs t from rfl]
    rcases hf : last_id_for bs t with _ | i
    · simp only [Option.none_or]
      by_cases ht : t = b.title
      · have hbt : (b.title == t) = true := by simp [ht]
        simp [List.find?_cons, hbt, ht]
      · have hbt : (b.title == t) = false := by
          rw [beq_eq_false_iff_ne]
          exact fun h => ht h.symm
        simp [List.find?_cons, hbt, ht]
    · simp

/-- Claim C1: the compound book deletion is claimed to remove every
`books_authors`, `books_genres`, `books_series` and `reading` row whose
`book_id` equals the deleted book id.  Evaluating `delete_book` at a table
set in which book 1 is linked in `books_series` shows that the `books`,
`books_authors`, `books_genres` and `reading` rows are removed but the
`books_series` row `(book_id 1, series_id 1, series_order 1)` survives:
the cascade line for `books_series` is commented out in the source, so the
code contradicts the documented cascade. -/
theorem C1_delete_book_leaves_books_series :
    (delete_book exC1 1).books = [] ∧
    (delete_book exC1 1).books_authors = [] ∧
    (delete_book exC1 1).books_genres = [] ∧
    (delete_book exC1 1).reading = [] ∧
    (delete_book exC1 1).books_series = [⟨1, 1, 1⟩] := by
  decide

/-- Claim C2, counterexample: the displayed rating is not rounded to one
decimal place.  For a book with reading-event ratings 3, 3 and 4 the view
shows the exact mean 10/3, while rounding to one decimal would give 33/10,
a different rational. -/
theorem C2_rating_not_rounded_counterexample :
    (generate_main_books exC2b .nofilter).map (fun v => v.rating) =
      [some (10 / 3 : ℚ)] ∧
    spec_round1 (10 / 3 : ℚ) = 33 / 10 ∧
    some (10 / 3 : ℚ) ≠ some (spec_round1 (10 / 3 : ℚ)) := by
  refine ⟨?_, ?_, ?_⟩
  · simp [generate_main_books, books_view_base, mk_books_row,
      create_book_authors_merge, create_books_genres_merge,
      create_books_reading_agg, books_authors_joined, books_genres_joined,
      create_authors_formatted, mk_author_agg, mk_genre_agg, mk_reading_agg,
      reading_group, sortKeys, insertKey, merge_names, exC2b]
    norm_num
  · norm_num [spec_round1, round_eq]
  · norm_num [spec_round1, round_eq]

/-- Claim C2 (amended: no rounding is applied): every row of the unfiltered
books view comes from a book row with the same id, and its displayed rating
is the exact (unrounded) mean of the book's non-missing reading-event
ratings when at least one exists, and otherwise the book's manually entered
rating (absent when that is also missing). -/
theorem C2_rating_mean_fallback (m : Model) (v : BooksViewRow)
    (hv : v ∈ generate_main_books m .nofilter) :
    ∃ b ∈ m.books, v.id = b.id ∧
      v.rating =
        (if ((reading_group m b.id).filterMap (fun r => r.rating)).isEmpty then
          b.rating
        else some (((reading_group m b.id).filterMap (fun r => r.rating)).sum /
          (((reading_group m b.id).filterMap (fun r => r.rating)).length : ℚ))) := by
  have hv2 : v ∈ books_view_base m := hv
  obtain ⟨b, hb, a, ha, g, hg, rfl⟩ := (mem_books_view m v).mp hv2
  exact ⟨b, hb, rfl, mk_books_row_rating m b a g⟩

/-- Claim C2, witness: on the spec scenario (manual rating 4, reading
ratings 3 and 5) the view row carries rating 4, the mean. -/
theorem C2_rating_mean_fallback_witness :
    ∃ b ∈ exC2w.books, vrowC2.id = b.id ∧
      vrowC2.rating =
        (if ((reading_group exC2w b.id).filterMap (fun r => r.rating)).isEmpty then
          b.rating
        else some (((reading_group exC2w b.id).filterMap (fun r => r.rating)).sum /
          (((reading_group exC2w b.id).filterMap (fun r => r.rating)).length : ℚ))) :=
  C2_rating_mean_fallback exC2w vrowC2 (by
    simp [generate_main_books, books_view_base, mk_books_row,
      create_book_authors_merge, create_books_genres_merge,
      create_books_reading_agg, books_authors_joined, books_genres_joined,
      create_authors_formatted, mk_author_agg, mk_genre_agg, mk_reading_agg,
      reading_group, sortKeys, insertKey, merge_names, exC2w, vrowC2]
    norm_num
    exact ⟨rfl, rfl⟩)

/-- Claim C3, counterexample: a book with zero `books_authors` rows (and
zero `books_genres` rows) does not appear in the unfiltered books view at
all — the merges with the author and genre aggregates are inner joins, not
left joins. -/
theorem C3_missing_author_link_counterexample :
    generate_main_books exC3 .nofilter = [] ∧
    exC3.books = [⟨1, "Orphan", none, none⟩] := by
  decide

/-- Claim C3 (amended: the book needs at least one resolvable author link
and one resolvable genre link): every such book row yields a row of the
unfiltered books view with its id, and when the book has zero reading rows
that view row's times-read aggregate defaults to 0. -/
theorem C3_books_view_membership (m : Model) (b : BookRow) (hb : b ∈ m.books)
    (hA : ∃ ba ∈ m.books_authors, ba.book_id = b.id ∧
      ∃ a ∈ m.authors, a.id = ba.author_id)
    (hG : ∃ bg ∈ m.books_genres, bg.book_id = b.id ∧
      ∃ g ∈ m.genres, g.id = bg.genre_id) :
    ∃ v ∈ generate_main_books m .nofilter, v.id = b.id ∧
      ((∀ r ∈ m.reading, r.book_id ≠ b.id) → v.times_read = 0) := by
  refine ⟨mk_books_row m b (mk_author_agg m b.id) (mk_genre_agg m b.id), ?_, rfl, ?_⟩
  · show _ ∈ books_view_base m
    exact (mem_books_view m _).mpr
      ⟨b, hb, _, author_agg_mem m b.id hA, _, genre_agg_mem m b.id hG, rfl⟩
  · intro hno
    rw [mk_books_row_times_read]
    have hnil : reading_group m b.id = [] := by
      rw [reading_group, List.filter_eq_nil_iff]
      intro r hr hk
      rw [beq_iff_eq] at hk
      exact hno r hr hk
    simp [hnil]

/-- Claim C3, witness: a linked book with no reading rows appears in the
view with times-read 0. -/
theorem C3_books_view_membership_witness :
    ∃ v ∈ generate_main_books exC3w .nofilter, v.id = 1 ∧
      ((∀ r ∈ exC3w.reading, r.book_id ≠ 1) → v.times_read = 0) :=
  C3_books_view_membership exC3w ⟨1, "T", none, none⟩ (by decide) (by decide)
    (by decide)

/-- Claim C4: `generate_id` returns the smallest positive integer absent
from the table's current ids; any sequence of `add_entry`/`delete_entry`
steps preserves pairwise distinctness of the ids; and adding after a
deletion reuses id N whenever N is the smallest unused positive integer
(in particular the new row is appended with exactly that id). -/
theorem C4_generate_id_unique_recycle :
    (∀ ids : List Nat, 1 ≤ generate_id ids ∧ generate_id ids ∉ ids ∧
      ∀ k, 1 ≤ k → k < generate_id ids → k ∈ ids) ∧
    (∀ (α : Type) (idOf : α → Nat) (t : List α) (ops : List (TableOp α)),
      (∀ op ∈ ops, opWF idOf op) → (t.map idOf).Nodup →
      ((applyOps idOf t ops).map idOf).Nodup) ∧
    (∀ (α : Type) (idOf : α → Nat) (mk : Nat → α) (t2 : List α) (N : Nat),
      1 ≤ N → (∀ k, 1 ≤ k → k < N → k ∈ t2.map idOf) → N ∉ t2.map idOf →
      add_entry t2 idOf mk = t2 ++ [mk N]) :=
  ⟨generate_id_spec,
   fun _ idOf t ops hwf h => applyOps_nodup idOf ops t hwf h,
   fun _ idOf mk t2 N hN hall habs => add_after_delete idOf mk t2 N hN hall habs⟩

/-- Claim C4, witness: deleting the row with id 2 from a table with ids
1, 2, 3 and then adding appends a row that reuses id 2. -/
theorem C4_generate_id_unique_recycle_witness :
    add_entry (delete_entry exT4 (fun b => b.id) 2) (fun b => b.id) mkB4 =
      delete_entry exT4 (fun b => b.id) 2 ++ [mkB4 2] :=
  C4_generate_id_unique_recycle.2.2 BookRow (fun b => b.id) mkB4
    (delete_entry exT4 (fun b => b.id) 2) 2
    (by omega)
    (by
      intro k h1 h2
      have hk : k = 1 := by omega
      subst hk
      decide)
    (by decide)

/-- Claim C5, counterexample: with no matching row, `delete_entry` returns
normally with the table unchanged (a silent no-op, not a typed
`NotFoundError`), and `edit_entry` hits `.index[0]` on an empty selection,
an uncaught `IndexError` (embedded as `none`), not a typed error either. -/
theorem C5_no_match_counterexample :
    delete_entry exC5 (fun b => b.id) 7 = exC5 ∧
    edit_entry exC5 (fun b => b.id) 7 (fun b => { b with title := "X" }) = none := by
  decide

/-- Claim C5 (amended: there is no typed `NotFoundError`): whenever no row
of the table matches the match column/value, `delete_entry` leaves the
table exactly unchanged and returns normally, and `edit_entry` raises an
uncaught `IndexError` (embedded as `none`), leaving the table unchanged. -/
theorem C5_no_match_behaviour {α : Type} (t : List α) (col : α → Nat)
    (v : Nat) (upd : α → α) (h : ∀ r ∈ t, col r ≠ v) :
    delete_entry t col v = t ∧ edit_entry t col v upd = none := by
  constructor
  · rw [delete_entry, List.filter_eq_self]
    intro r hr
    simp [h r hr]
  · rw [edit_entry]
    rw [findIdx?_none_of_no_match _ t 0 (fun r hr => by simp [h r hr])]

/-- Claim C5, witness: no row of the example table has id 9; deleting is a
no-op and editing returns the embedded crash. -/
theorem C5_no_match_behaviour_witness :
    delete_entry exC5 (fun b => b.id) 9 = exC5 ∧
    edit_entry exC5 (fun b => b.id) 9 (fun b => { b with rating := some 5 }) = none :=
  C5_no_match_behaviour exC5 (fun b => b.id) 9
    (fun b => { b with rating := some 5 }) (by decide)

/-- Claim C6: for every author row with a non-empty last name (the one
required name component), `merge_names` produces exactly the spec's format:
the non-empty components of first, middle and last name joined by single
spaces, with `", " ++ suffix` appended when the suffix is non-empty; and
the two concrete examples from the spec hold. -/
theorem C6_full_name_formatting :
    (∀ first_name middle_name last_name sfx : String, last_name ≠ "" →
      merge_names first_name middle_name last_name sfx =
        spec_full_name first_name middle_name last_name sfx) ∧
    merge_names "Ada" "" "Lovelace" "" = "Ada Lovelace" ∧
    merge_names "J" "R.R." "Tolkien" "Jr." = "J R.R. Tolkien, Jr." := by
  refine ⟨?_, by decide, by decide⟩
  intro f m l s hl
  by_cases hf : f = "" <;> by_cases hm : m = "" <;> by_cases hs : s = "" <;>
    simp [merge_names, spec_full_name, joinWithSpaces, hf, hm, hl, hs,
          String.append_assoc]

/-- Claim C6, witness: the general formatting rule applied to the first
spec example. -/
theorem C6_full_name_formatting_witness :
    merge_names "Ada" "" "Lovelace" "" = spec_full_name "Ada" "" "Lovelace" "" :=
  C6_full_name_formatting.1 "Ada" "" "Lovelace" "" (by decide)

/-- Claim C7, counterexample: two reading events with equal finish dates
and start dates in descending table order come out of the view still in
descending start order — `sort_values("Finish")` sorts by the finish
column only, so the claimed secondary ascending-start order fails. -/
theorem C7_secondary_sort_counterexample :
    pairwiseChain claim_reading_order (generate_main_reading exC7 .nofilter) = false ∧
    (generate_main_reading exC7 .nofilter).map (fun v => v.start) =
      [some ⟨2021, 5, 1⟩, some ⟨2021, 3, 1⟩] ∧
    (generate_main_reading exC7 .nofilter).map (fun v => v.finish) =
      [some ⟨2021, 6, 1⟩, some ⟨2021, 6, 1⟩] := by
  decide

/-- Claim C7 (amended: no secondary ordering by start date): for every
table set and every filter, the rows of the reading view are sorted
ascending by finish date with missing finish dates last; rows with equal
finish dates carry no guaranteed relative order. -/
theorem C7_sorted_by_finish (m : Model) (f : ReadingFilter) :
    pairwiseChain (fun a b => finishLe a.finish b.finish)
      (generate_main_reading m f) = true :=
  sortByFinish_sorted (apply_reading_filter f (reading_view_base m))

/-- Claim C8: a view-building call returns the eight tables exactly as it
received them — building a filtered or unfiltered view never mutates the
stored tables — and equal table sets produce equal views. -/
theorem C8_views_preserve_tables (m : Model) (c : Cmd) :
    (run_view m c).1 = m ∧
    ∀ m2 : Model, m2 = m → (run_view m2 c).2 = (run_view m c).2 := by
  cases c <;> exact ⟨rfl, fun m2 h => by rw [h]⟩

/-- Claim C8, witness: the frame property at a concrete table set and
filter. -/
theorem C8_views_preserve_tables_witness :
    (run_view exC3w (Cmd.viewBooks BooksFilter.nofilter)).1 = exC3w ∧
    (run_view exC3w (Cmd.viewBooks BooksFilter.nofilter)).2 =
      (run_view exC3w (Cmd.viewBooks BooksFilter.nofilter)).2 :=
  ⟨(C8_views_preserve_tables exC3w (Cmd.viewBooks BooksFilter.nofilter)).1,
   (C8_views_preserve_tables exC3w (Cmd.viewBooks BooksFilter.nofilter)).2
     exC3w rfl⟩

/-- Claim C9: for a non-empty list of chosen ids, the Author and Genre
option filters keep a books-view row exactly when at least one chosen id
belongs to the row's author-id (resp. genre-id) set — existential
membership, despite the all-membership name of `check_all_in_set`. -/
theorem C9_option_filter_existential (m : Model) (ids : List Nat)
    (v : BooksViewRow) (_hne : ids ≠ []) :
    (v ∈ generate_main_books m (.author ids) ↔
      v ∈ generate_main_books m .nofilter ∧ ∃ x ∈ ids, x ∈ v.author_ids) ∧
    (v ∈ generate_main_books m (.genre ids) ↔
      v ∈ generate_main_books m .nofilter ∧ ∃ x ∈ ids, x ∈ v.genre_ids) := by
  constructor
  · rw [show generate_main_books m (.author ids) =
        (books_view_base m).filter (fun v => check_all_in_set ids v.author_ids)
        from rfl,
      show generate_main_books m .nofilter = books_view_base m from rfl,
      List.mem_filter, check_all_in_set_iff]
  · rw [show generate_main_books m (.genre ids) =
        (books_view_base m).filter (fun v => check_all_in_set ids v.genre_ids)
        from rfl,
      show generate_main_books m .nofilter = books_view_base m from rfl,
      List.mem_filter, check_all_in_set_iff]

/-- Claim C9, witness: the filter characterization at a concrete table set,
row and chosen-id list. -/
theorem C9_option_filter_existential_witness :
    (vrowC9 ∈ generate_main_books exC3w (.author [1]) ↔
      vrowC9 ∈ generate_main_books exC3w .nofilter ∧
        ∃ x ∈ [1], x ∈ vrowC9.author_ids) ∧
    (vrowC9 ∈ generate_main_books exC3w (.genre [1]) ↔
      vrowC9 ∈ generate_main_books exC3w .nofilter ∧
        ∃ x ∈ [1], x ∈ vrowC9.genre_ids) :=
  C9_option_filter_existential exC3w [1] vrowC9 (by decide)

/-- Claim C10: the title-to-id lookup built by `get_books_dict` has exactly
one entry per distinct title, maps each title to the id of the last row of
the books table bearing it, and on a table with two books sharing a title
its size is strictly smaller than the row count (the earlier book is
unreachable through the lookup). -/
theorem C10_books_dict_last_title_wins :
    (∀ books : List BookRow,
      ((get_books_dict books).map Prod.fst).Nodup ∧
      ∀ t, dict_lookup (get_books_dict books) t = last_id_for books t) ∧
    (get_books_dict exBooks10).length < exBooks10.length ∧
    dict_lookup (get_books_dict exBooks10) "Dune" = some 2 := by
  refine ⟨fun books => ?_, by decide, by decide⟩
  obtain ⟨h1, h2⟩ := get_books_dict_invariant books [] (by simp)
  refine ⟨h1, fun t => ?_⟩
  have h3 := h2 t
  simpa [dict_lookup] using h3
